import Mathlib

/-!
Verification development for the embedded-cover-art extractors of the
gen_art repository (src/Extensions/id3v2_reader.cpp, flac_reader.cpp,
ape_reader.cpp, mp4_reader.cpp, src/utils_common.h, src/cover_window.cpp).

The extractors are shallowly embedded over a byte-source model:

* a file is a `ByteFile` (a total length plus a byte at every offset);
* `FState` models the `FileHandle` cursor from utils_common.h, with
  `read` (ReadFile with exact-count semantics), `seek`
  (SetFilePointer FILE_CURRENT) and `ByteFile.ReadAt`
  (SetFilePointer FILE_BEGIN with split 64-bit offset, then read);
* `GetSize` models GetFileSize with a NULL high part: it reports the
  true length only below 4 GiB and INVALID_FILE_SIZE (0xFFFFFFFF)
  otherwise, matching the comment in utils_common.h;
* DWORD / unsigned __int64 arithmetic is `Nat` with an explicit
  `% 2^32` / `% 2^64` at every operation where the C code can wrap;
* the image-decoding collaborator (`Img_LoadFromMemoryToBitmap`) is an
  abstract parameter `dec : List Nat → Bool`; an extractor returns the
  payload bytes it handed to a successful decode, or `none`;
* memory allocation (`GlobalAlloc`) is modelled as always succeeding;
* where the C code indexes a loaded buffer without a bounds check
  (only the ID3v2 frame-body parser and the APE value scanner do),
  the access is `List.get?` and an out-of-range access aborts the whole
  extraction with a distinguished outer `none`; a clean "no cover"
  result is `some none`.  Extractors whose buffer accesses are all
  guarded in the source return a plain `Option`.
* loops whose progress the C code does not bound structurally take a
  fuel argument; the fuel supplied exceeds the iteration count of every
  execution reachable in the theorems below.

Pointer comparisons such as `_p + bytes > _end` are modelled as exact
`Nat` arithmetic (the C pointer arithmetic wraps at the address-space
size, which has no counterpart in the byte-source model).
-/

namespace GenArt

/-- A readable file: a total length and the byte stored at each offset. -/
structure ByteFile where
  size : Nat
  byteAt : Nat → Nat

/-- The `cnt` bytes of `f` starting at absolute offset `off`. -/
def readBytes (f : ByteFile) (off cnt : Nat) : List Nat :=
  (List.range cnt).map (fun i => f.byteAt (off + i))

def dwordMod : Nat := 4294967296

def qwordMod : Nat := 18446744073709551616

/-- DWORD subtraction `a - b` (b a 32-bit value), wrapping at `2^32`. -/
def sub32 (a b : Nat) : Nat := (a + dwordMod - b) % dwordMod

/-- unsigned __int64 subtraction `a - b` (b a 64-bit value), wrapping at `2^64`. -/
def sub64 (a b : Nat) : Nat := (a + qwordMod - b) % qwordMod

/-- A DWORD reinterpreted as a signed LONG (two's complement). -/
def asInt32 (n : Nat) : Int :=
  if n < 2147483648 then (n : Int) else (n : Int) - (dwordMod : Int)

/-- Win32 GetFileSize with a NULL high part: the true size below 4 GiB,
INVALID_FILE_SIZE (0xFFFFFFFF) for larger files. -/
def win32GetFileSize (sz : Nat) : Nat :=
  if sz < 4294967296 then sz else 4294967295

/-- FileHandle::GetSize (utils_common.h line 150). -/
def ByteFile.GetSize (f : ByteFile) : Nat := win32GetFileSize f.size

/-- The 64-bit position FileHandle::ReadAt actually seeks to, rebuilt from
the high/low halves it passes to SetFilePointer
(`hi = offset >> 32`, `lo = offset & 0xFFFFFFFF`). -/
def readAtOffsetUsed (offset : Nat) : Nat :=
  ((offset >>> 32) % dwordMod) * dwordMod + offset % dwordMod

/-- FileHandle::ReadAt (utils_common.h lines 188-202): positioned read.
An offset at or above `2^63` makes the recombined signed 64-bit distance
negative, so SetFilePointer fails and the read is not attempted. -/
def ByteFile.ReadAt (f : ByteFile) (off cnt : Nat) : Option (List Nat) :=
  if 9223372036854775808 ≤ off then none
  else
    let p := readAtOffsetUsed off
    if cnt = 0 then some []
    else if p + cnt ≤ f.size then some (readBytes f p cnt) else none

/-- A FileHandle with its current cursor position. -/
structure FState where
  file : ByteFile
  pos : Nat

/-- FileHandle::Read (utils_common.h line 165): reads exactly `cnt` bytes or
fails; a short read still advances the cursor by the bytes available. -/
def FState.read (s : FState) (cnt : Nat) : Option (List Nat) × FState :=
  if cnt = 0 then (some [], s)
  else if s.pos + cnt ≤ s.file.size then
    (some (readBytes s.file s.pos cnt), ⟨s.file, s.pos + cnt⟩)
  else
    (none, ⟨s.file, if s.file.size ≤ s.pos then s.pos else s.file.size⟩)

/-- FileHandle::Seek with FILE_CURRENT: a move to a negative position fails
and leaves the cursor unchanged; moving past EOF is allowed. -/
def FState.seek (s : FState) (dist : Int) : FState :=
  if 0 ≤ (s.pos : Int) + dist then ⟨s.file, ((s.pos : Int) + dist).toNat⟩ else s

/-- BE32 (utils_common.h line 231). -/
def BE32 (p : List Nat) : Nat :=
  p.getD 0 0 * 16777216 + p.getD 1 0 * 65536 + p.getD 2 0 * 256 + p.getD 3 0

/-- BE24 (utils_common.h line 246). -/
def BE24 (p : List Nat) : Nat :=
  p.getD 0 0 * 65536 + p.getD 1 0 * 256 + p.getD 2 0

/-- BE64 (utils_common.h line 260). -/
def BE64 (p : List Nat) : Nat :=
  p.getD 0 0 * 72057594037927936 + p.getD 1 0 * 281474976710656 +
  p.getD 2 0 * 1099511627776 + p.getD 3 0 * 4294967296 +
  p.getD 4 0 * 16777216 + p.getD 5 0 * 65536 + p.getD 6 0 * 256 + p.getD 7 0

/-- LE32 (utils_common.h line 281). -/
def LE32 (p : List Nat) : Nat :=
  p.getD 0 0 + p.getD 1 0 * 256 + p.getD 2 0 * 65536 + p.getD 3 0 * 16777216

/-- SyncSafeToInt (utils_common.h line 315): 7 usable bits per byte. -/
def SyncSafeToInt (b : List Nat) : Nat :=
  (b.getD 0 0 % 128) * 2097152 + (b.getD 1 0 % 128) * 16384 +
  (b.getD 2 0 % 128) * 128 + b.getD 3 0 % 128

/-- FCC (utils_common.h line 344). -/
def FCC (a b c d : Nat) : Nat :=
  (a % 256) * 16777216 + (b % 256) * 65536 + (c % 256) * 256 + d % 256

/-!
ID3v2 extractor (src/Extensions/id3v2_reader.cpp).

`ID3v2_run` returns the extraction outcome together with the final file
cursor.  The outcome is `Option (Option payload)`: the outer `none` marks
an out-of-bounds buffer access (the frame-body parser can index past its
allocation), `some none` is a clean "no cover" (FALSE), and
`some (some payload)` is TRUE with the image bytes that decoded.
-/

/-- The 1-byte-terminator scan of SkipEncodedString (Latin1/UTF-8 branch,
id3v2_reader.cpp lines 38-41), recast structurally: the first argument is
the remaining loop count `cb - i`, the second the buffer suffix from the
current position.  `some (some j)` finds the terminator `j` bytes in,
`some none` exhausts the count, and `none` is the loop reading past the
buffer (the source access `p[i]` is unguarded). -/
def scanNul1 : Nat → List Nat → Option (Option Nat)
  | 0, _ => some none
  | _ + 1, [] => none
  | k + 1, b :: rest =>
    if b = 0 then some (some 0) else (scanNul1 k rest).map (Option.map (· + 1))

/-- The 2-byte-terminator scan of SkipEncodedString (UTF-16 branch,
id3v2_reader.cpp lines 32-35), recast the same way; the loop runs while
`i + 1 < cb` in steps of two, and `p[i + 1]` is only read when `p[i] = 0`
(short-circuit `&&`).  `some (some j)` finds the 2-byte terminator at the
`j`-th pair. -/
def scanNul2 : Nat → List Nat → Option (Option Nat)
  | 0, _ => some none
  | 1, _ => some none
  | _ + 2, [] => none
  | k + 2, [b0] => if b0 = 0 then none else scanNul2 k []
  | k + 2, b0 :: b1 :: rest =>
    if b0 = 0 then
      if b1 = 0 then some (some 0) else (scanNul2 k rest).map (Option.map (· + 1))
    else (scanNul2 k rest).map (Option.map (· + 1))

/-- SkipEncodedString (id3v2_reader.cpp lines 27-43): the string starts at
offset `off` inside `buf`, `cb` is the DWORD byte count the caller passed;
the return value is the byte count skipped, or `none` when the scan left
the buffer. -/
def SkipEncodedString (buf : List Nat) (off cb enc : Nat) : Option Nat :=
  if cb = 0 then some 0
  else if enc = 1 ∨ enc = 2 then
    match scanNul2 cb (buf.drop off) with
    | none => none
    | some (some j) => some (2 * j + 2)
    | some none => some cb
  else
    match scanNul1 cb (buf.drop off) with
    | none => none
    | some (some j) => some (j + 1)
    | some none => some cb

/-- A guarded `while (pos < limit && byte != 0) ++pos` counter: the number
of leading nonzero bytes of the suffix, capped by the remaining count.
Used for the ID3v2 MIME scan (id3v2_reader.cpp line 137) and the APE key
scan (ape_reader.cpp line 91), whose accesses are both bounds-guarded. -/
def countNonzero : Nat → List Nat → Nat
  | 0, _ => 0
  | _ + 1, [] => 0
  | k + 1, b :: rest => if b ≠ 0 then countNonzero k rest + 1 else 0

/-- Parse of a loaded picture-frame body (id3v2_reader.cpp lines 126-149).
`buf[0]` and the description scan are unguarded in the source; the DWORD
count `frameSize - p` is computed with 32-bit wrap-around. -/
def id3ParseBody (dec : List Nat → Bool) (buf : List Nat) (frameSize ver : Nat) :
    Option (Option (List Nat)) :=
  match buf.get? 0 with
  | none => none
  | some enc =>
    let p := if ver = 2 then 5 else 1 + countNonzero (frameSize - 1) (buf.drop 1) + 2
    match SkipEncodedString buf p (sub32 frameSize p) enc with
    | none => none
    | some k =>
      let q := p + k
      if q < frameSize then
        let payload := buf.drop q
        some (if dec payload then some payload else none)
      else some none

/-- The frame-iteration loop of ID3v2_LoadCoverToBitmapA (id3v2_reader.cpp
lines 89-158).  `remaining -= headerLen` is a DWORD subtraction and can
wrap; the fuel argument exceeds any reachable iteration count and a fuel
of 0 yields the out-of-model marker `none`. -/
def id3FrameLoop (dec : List Nat → Bool) (ver : Nat) :
    Nat → FState → Nat → Option (Option (List Nat)) × Nat
  | 0, s, _ => (none, s.pos)
  | fuel + 1, s, remaining =>
    if remaining = 0 then (some none, s.pos)
    else
      let hl := if ver = 2 then 6 else 10
      match s.read hl with
      | (none, s1) => (some none, s1.pos)
      | (some fh, s1) =>
        if fh.getD 0 0 = 0 then (some none, s1.pos)
        else
          let frameSize :=
            if ver = 2 then BE24 (fh.drop 3)
            else if ver = 4 then SyncSafeToInt (fh.drop 4) else BE32 (fh.drop 4)
          let isCover :=
            if ver = 2 then fh.take 3 = [80, 73, 67] else fh.take 4 = [65, 80, 73, 67]
          if remaining < frameSize then (some none, s1.pos)
          else
            let rem1 := sub32 remaining hl
            if isCover then
              match s1.read frameSize with
              | (none, s2) =>
                if rem1 < frameSize then (some none, s2.pos)
                else id3FrameLoop dec ver fuel s2 (rem1 - frameSize)
              | (some buf, s2) =>
                match id3ParseBody dec buf frameSize ver with
                | none => (none, s2.pos)
                | some (some payload) => (some (some payload), s2.pos)
                | some none =>
                  if rem1 < frameSize then (some none, s2.pos)
                  else id3FrameLoop dec ver fuel s2 (rem1 - frameSize)
            else
              let s2 := s1.seek (asInt32 frameSize)
              if rem1 < frameSize then (some none, s2.pos)
              else id3FrameLoop dec ver fuel s2 (rem1 - frameSize)

/-- Extended-header handling plus frame loop (id3v2_reader.cpp lines 66-158),
entered once the 10-byte header passed the magic and size checks. -/
def ID3v2_afterHeader (dec : List Nat → Bool) (s : FState) (ver flags tagSize : Nat) :
    Option (Option (List Nat)) × Nat :=
  if (ver = 3 ∨ ver = 4) ∧ flags &&& 64 ≠ 0 then
    match s.read 10 with
    | (none, s1) => (some none, s1.pos)
    | (some ex, s1) =>
      let extSize := if ver = 4 then SyncSafeToInt ex else BE32 ex
      if tagSize < extSize then (some none, s1.pos)
      else
        let s2 := s1.seek (asInt32 (sub32 extSize 10))
        id3FrameLoop dec ver (s2.file.size + 4294967296) s2 (tagSize - extSize)
  else id3FrameLoop dec ver (s.file.size + 4294967296) s tagSize

/-- ID3v2_LoadCoverToBitmapA (id3v2_reader.cpp lines 49-159), instrumented
with the final cursor position. -/
def ID3v2_run (dec : List Nat → Bool) (f : ByteFile) : Option (Option (List Nat)) × Nat :=
  match FState.read ⟨f, 0⟩ 10 with
  | (none, s1) => (some none, s1.pos)
  | (some hdr, s1) =>
    if hdr.take 3 = [73, 68, 51] then
      let ver := hdr.getD 3 0
      let flags := hdr.getD 5 0
      let tagSize := SyncSafeToInt (hdr.drop 6)
      if tagSize < 10 ∨ 33554432 < tagSize then (some none, s1.pos)
      else ID3v2_afterHeader dec s1 ver flags tagSize
    else (some none, s1.pos)

/-- The BOOL/out-parameter surface of ID3v2_LoadCoverToBitmapA: the payload
that decoded, if a cover was loaded (joins away the instrumentation). -/
def ID3v2_LoadCoverToBitmapA (dec : List Nat → Bool) (f : ByteFile) : Option (List Nat) :=
  (ID3v2_run dec f).1.join

/-!
FLAC extractor (src/Extensions/flac_reader.cpp).  Every buffer access of
FLAC_BlockReader is bounds-guarded in the source, so the embedding is a
plain `Option`.  The interleaved scan loop is `flacLoop`; the same byte
walk is also split into `flacParseBlocks` (the candidate pictures in
block order) so that the selection policy can be stated over lists, and
the two are proved equal below.
-/

/-- FLAC_BlockReader (flac_reader.cpp lines 22-55): a cursor over a loaded
block body; `_end - _p` bookkeeping becomes an offset into `buf`. -/
structure BReader where
  buf : List Nat
  off : Nat

/-- FLAC_BlockReader::ReadU32: yields 0 without advancing when fewer than
4 bytes remain. -/
def BReader.ReadU32 (r : BReader) : Nat × BReader :=
  if r.off + 4 ≤ r.buf.length then (BE32 (r.buf.drop r.off), ⟨r.buf, r.off + 4⟩)
  else (0, r)

/-- FLAC_BlockReader::SafeSkip. -/
def BReader.SafeSkip (r : BReader) (n : Nat) : Option BReader :=
  if r.off + n ≤ r.buf.length then some ⟨r.buf, r.off + n⟩ else none

/-- FLAC_BlockReader::HasBytes. -/
def BReader.HasBytes (r : BReader) (n : Nat) : Bool :=
  r.off + n ≤ r.buf.length

/-- The PICTURE-block body walk (flac_reader.cpp lines 118-134): picture
type, MIME skip, description skip, 16 fixed bytes, then the image data
length and the image bytes, provided they actually fit in the buffer. -/
def flacParsePicture (buf : List Nat) : Option (Nat × List Nat) :=
  let t0 := BReader.ReadU32 ⟨buf, 0⟩
  let t1 := t0.2.ReadU32
  match t1.2.SafeSkip t1.1 with
  | none => none
  | some r3 =>
    let t2 := r3.ReadU32
    match t2.2.SafeSkip t2.1 with
    | none => none
    | some r5 =>
      match r5.SafeSkip 16 with
      | none => none
      | some r6 =>
        let t3 := r6.ReadU32
        if t3.2.HasBytes t3.1 then some (t0.1, (buf.drop t3.2.off).take t3.1)
        else none

/-- The leading ID3v2 skip and "fLaC" magic check (flac_reader.cpp lines
69-84); returns the cursor positioned after the stream marker. -/
def flacStart (f : ByteFile) : Option FState :=
  let s1 :=
    match FState.read ⟨f, 0⟩ 10 with
    | (some probe, sa) =>
      if probe.take 3 = [73, 68, 51] then sa.seek ((SyncSafeToInt (probe.drop 6) : Nat) : Int)
      else (⟨f, 0⟩ : FState)
    | (none, sa) => sa
  match s1.read 4 with
  | (some sig, s2) => if sig = [102, 76, 97, 67] then some s2 else none
  | (none, _) => none

/-- The metadata-block loop of FLAC_LoadCoverToBitmapA (flac_reader.cpp
lines 92-162), carrying the fallback picture. -/
def flacLoop (dec : List Nat → Bool) : Nat → FState → Option (List Nat) → Option (List Nat)
  | 0, _, fb => fb
  | fuel + 1, s, fb =>
    match s.read 4 with
    | (none, _) => fb
    | (some hdr, s1) =>
      let isLast := hdr.getD 0 0 &&& 128 ≠ 0
      let ty := hdr.getD 0 0 &&& 127
      let len := BE24 (hdr.drop 1)
      if ty ≠ 6 ∨ 16777216 < len then
        if isLast then fb else flacLoop dec fuel (s1.seek (len : Int)) fb
      else
        match s1.read len with
        | (none, s2) => if isLast then fb else flacLoop dec fuel s2 fb
        | (some buf, s2) =>
          match flacParsePicture buf with
          | none => if isLast then fb else flacLoop dec fuel s2 fb
          | some (picType, img) =>
            if dec img then
              if picType = 3 then some img
              else
                let fb1 := if fb.isSome then fb else some img
                if isLast then fb1 else flacLoop dec fuel s2 fb1
            else if isLast then fb else flacLoop dec fuel s2 fb

/-- The same byte walk as `flacLoop`, collecting every picture candidate
(type, image bytes) that passes the block and body bounds checks, in
block order. -/
def flacParseBlocks : Nat → FState → List (Nat × List Nat)
  | 0, _ => []
  | fuel + 1, s =>
    match s.read 4 with
    | (none, _) => []
    | (some hdr, s1) =>
      let isLast := hdr.getD 0 0 &&& 128 ≠ 0
      let ty := hdr.getD 0 0 &&& 127
      let len := BE24 (hdr.drop 1)
      if ty ≠ 6 ∨ 16777216 < len then
        if isLast then [] else flacParseBlocks fuel (s1.seek (len : Int))
      else
        match s1.read len with
        | (none, s2) => if isLast then [] else flacParseBlocks fuel s2
        | (some buf, s2) =>
          match flacParsePicture buf with
          | none => if isLast then [] else flacParseBlocks fuel s2
          | some c => c :: (if isLast then [] else flacParseBlocks fuel s2)

/-- The selection policy of the scan loop, over a candidate list: a decoded
front cover (type 3) returns immediately; the first other decoded picture
becomes the fallback. -/
def flacSelectAux (dec : List Nat → Bool) : List (Nat × List Nat) → Option (List Nat) → Option (List Nat)
  | [], fb => fb
  | c :: rest, fb =>
    if dec c.2 then
      if c.1 = 3 then some c.2
      else flacSelectAux dec rest (if fb.isSome then fb else some c.2)
    else flacSelectAux dec rest fb

/-- FLAC_LoadCoverToBitmapA (flac_reader.cpp lines 61-172). -/
def FLAC_LoadCoverToBitmapA (dec : List Nat → Bool) (f : ByteFile) : Option (List Nat) :=
  match flacStart f with
  | none => none
  | some s => flacLoop dec (f.size + 2) s none

/-- The picture candidates of a FLAC file, in block order. -/
def FLAC_candidates (f : ByteFile) : List (Nat × List Nat) :=
  match flacStart f with
  | none => []
  | some s => flacParseBlocks (f.size + 2) s

/-!
APE extractor (src/Extensions/ape_reader.cpp).  The footer scan and the
item walk are guarded, but the value scan trusts the item's declared
value size, which the `pos + valSize > size` check only compares after a
DWORD wrap; the embedding therefore instruments the item walk like the
ID3v2 body parser (outer `none` = out-of-bounds access).  The item loop
computes each picture candidate in place (as the source does) and the
running best is the fold `apeBest` over that candidate list; the fold
update condition is verbatim the source's.
-/

/-- ApeLoc (ape_reader.cpp lines 18-22). -/
structure ApeLoc where
  absStart : Nat
  absFooter : Nat
  totalSize : Nat
deriving DecidableEq

/-- The signature/size test the backward scan performs at window offset
`i` (ape_reader.cpp lines 52-62): "APETAGEX" at `i`, a little-endian tag
size 12 bytes in, valid only when `32 <= size <= fSize`.  The resulting
absolute start is the DWORD value `absFooter + 32 - size`. -/
def apeCheckAt (window : List Nat) (fSize winBase i : Nat) : Option ApeLoc :=
  if (window.drop i).take 8 = [65, 80, 69, 84, 65, 71, 69, 88] then
    let size := LE32 (window.drop (i + 12))
    if 32 ≤ size ∧ size ≤ fSize then
      some ⟨sub32 (winBase + i + 32) size, winBase + i, size⟩
    else none
  else none

/-- The backward for-loop of Ape_ScanFooter (ape_reader.cpp lines 50-64):
offsets are probed from high to low and the first (highest) hit wins. -/
def apeScanBack (window : List Nat) (fSize winBase : Nat) : Nat → Option ApeLoc
  | 0 => apeCheckAt window fSize winBase 0
  | i + 1 =>
    match apeCheckAt window fSize winBase (i + 1) with
    | some loc => some loc
    | none => apeScanBack window fSize winBase i

/-- Ape_ScanFooter (ape_reader.cpp lines 34-67). -/
def Ape_ScanFooter (f : ByteFile) : Option ApeLoc :=
  let fSize := f.GetSize
  if fSize < 32 then none
  else
    let scanSize := if 4096 < fSize then 4096 else fSize
    match f.ReadAt (fSize - scanSize) scanSize with
    | none => none
    | some window => apeScanBack window fSize (fSize - scanSize) (scanSize - 32)

/-- One character of the key normalization (ape_reader.cpp lines 104-108):
lowercase it, keep it only if alphabetic. -/
def apeNormChar (c : Nat) : Option Nat :=
  let lc := if 65 ≤ c ∧ c ≤ 90 then c + 32 else c
  if 97 ≤ lc ∧ lc ≤ 122 then some lc else none

/-- The normalized key: lowercase alphabetic characters only, capped at 63
characters by the fixed `char norm[64]` buffer. -/
def apeNormKey (key : List Nat) : List Nat :=
  (key.filterMap apeNormChar).take 63

/-- Substring containment over byte lists (StrStrIA on the normalized key;
the key is already lowercase, so the case-insensitive search is plain
substring search). -/
def containsSub (hay pat : List Nat) : Bool :=
  (List.range (hay.length + 1)).any (fun i => pat.isPrefixOf (hay.drop i))

/-- The rank computation (ape_reader.cpp lines 113-118): `some r` when the
normalized key makes the item a picture candidate, with 0 = front,
2 = back, 1 = generic. -/
def apeRank (key : List Nat) : Option Nat :=
  let norm := apeNormKey key
  if containsSub norm [99, 111, 118, 101, 114] ∨
      containsSub norm [112, 105, 99, 116, 117, 114, 101] then
    some (if containsSub norm [102, 114, 111, 110, 116] then 0
          else if containsSub norm [98, 97, 99, 107] then 2 else 1)
  else none

/-- A picture candidate: its rank, the DWORD image length the code computed,
and the image bytes inside the tag buffer. -/
structure ApeCand where
  rank : Nat
  sz : Nat
  img : List Nat
deriving DecidableEq

/-- The value scan `while (p < valSize && val[p] != 0) ++p`
(ape_reader.cpp line 124).  `valSize` is the untrusted declared size, so
the access `val[p]` can leave the loaded buffer; that yields `none`. -/
def apeValScan (data : List Nat) (pos valSize : Nat) : Option Nat :=
  match scanNul1 valSize (data.drop pos) with
  | none => none
  | some (some j) => some j
  | some none => some valSize

/-- The image bytes of a picture item (ape_reader.cpp line 126): after the
embedded file name's terminator when one was found, else the whole value. -/
def apeImgSlice (data : List Nat) (pos2 valSize p : Nat) : List Nat :=
  if p < valSize then (data.drop (pos2 + p + 1)).take (valSize - p - 1)
  else (data.drop pos2).take valSize

/-- The image length of a picture item (ape_reader.cpp line 127). -/
def apeImgLen (valSize p : Nat) : Nat :=
  if p < valSize then valSize - p - 1 else valSize

/-- The `imgLen > 0` filter around the best-candidate update
(ape_reader.cpp lines 129-135): only nonzero payloads become candidates. -/
def apeConsCand (r imgLen : Nat) (img : List Nat) (rest : List ApeCand) : List ApeCand :=
  if 0 < imgLen then ⟨r, imgLen, img⟩ :: rest else rest

/-- The item loop of Ape_ParseItems (ape_reader.cpp lines 85-138), emitting
the picture candidates in item order (exactly the updates the running
best sees: rank matched and `imgLen > 0`).  Outer `none` marks an
out-of-bounds value scan. -/
def apeItemsLoop (data : List Nat) (size : Nat) : Nat → Nat → Option (List ApeCand)
  | 0, _ => none
  | fuel + 1, pos =>
    if (pos + 8) % dwordMod ≤ size then
      let valSize := LE32 (data.drop pos)
      let keyStart := (pos + 8) % dwordMod
      let posK := keyStart + countNonzero (size - keyStart) (data.drop keyStart)
      if size ≤ posK then some []
      else
        let key := (data.drop keyStart).take (posK - keyStart)
        let pos2 := posK + 1
        if size < (pos2 + valSize) % dwordMod then some []
        else
          match apeRank key with
          | none => apeItemsLoop data size fuel ((pos2 + valSize) % dwordMod)
          | some r =>
            match apeValScan data pos2 valSize with
            | none => none
            | some p =>
              match apeItemsLoop data size fuel ((pos2 + valSize) % dwordMod) with
              | none => none
              | some rest =>
                some (apeConsCand r (apeImgLen valSize p) (apeImgSlice data pos2 valSize p) rest)
    else some []

/-- The running-best update (ape_reader.cpp line 132):
`!bestData || rank < bestRank || (rank == bestRank && imgLen > bestSize)`. -/
def apeBetter (best : Option ApeCand) (c : ApeCand) : Option ApeCand :=
  match best with
  | none => some c
  | some b => if c.rank < b.rank ∨ (c.rank = b.rank ∧ b.sz < c.sz) then some c else some b

/-- The candidate the whole item loop leaves in `bestData`. -/
def apeBest (l : List ApeCand) : Option ApeCand :=
  l.foldl apeBetter none

/-- The header skip at the start of the tag body (ape_reader.cpp line 79). -/
def apeStart (data : List Nat) (size : Nat) : Nat :=
  if 32 ≤ size ∧ data.take 8 = [65, 80, 69, 84, 65, 71, 69, 88] then 32 else 0

/-- Ape_ParseItems (ape_reader.cpp lines 75-142).  Decoding the best
candidate reads `bestSize` bytes from `bestData`; when the declared size
over-claims past the buffer (only possible after a wrapped size check)
that read is out of bounds, hence the `sz = img.length` guard. -/
def Ape_ParseItems (dec : List Nat → Bool) (data : List Nat) (size : Nat) :
    Option (Option (List Nat)) :=
  match apeItemsLoop data size (size + 1) (apeStart data size) with
  | none => none
  | some cands =>
    match apeBest cands with
    | none => some none
    | some b =>
      if b.sz = b.img.length then some (if dec b.img then some b.img else none)
      else none

/-- APE_LoadCoverToBitmapA (ape_reader.cpp lines 148-168). -/
def APE_LoadCoverToBitmapA (dec : List Nat → Bool) (f : ByteFile) :
    Option (Option (List Nat)) :=
  match Ape_ScanFooter f with
  | none => some none
  | some loc =>
    let dataSize := loc.totalSize - 32
    if loc.totalSize < 32 then some none
    else
      match f.ReadAt loc.absStart dataSize with
      | none => some none
      | some buf => Ape_ParseItems dec buf dataSize

/-!
MP4 extractor (src/Extensions/mp4_reader.cpp).  All file accesses go
through the guarded `ReadAt`, so the embedding is a plain `Option`.
Box offsets and sizes are unsigned __int64, so every addition carries an
explicit `% 2^64`.
-/

/-- Case-insensitive ASCII comparison of byte strings (lstrcmpiA equality). -/
def eqNoCaseA (a b : List Nat) : Bool :=
  a.map (fun c => if 65 ≤ c ∧ c ≤ 90 then c + 32 else c) =
    b.map (fun c => if 65 ≤ c ∧ c ≤ 90 then c + 32 else c)

/-- PathFindExtensionA: the suffix of the path from the last '.' of its
final component (empty when the last component has no dot). -/
def pathExt (path : List Nat) : List Nat :=
  let r := path.reverse
  match r.findIdx? (fun c => c == 46 || c == 92) with
  | none => []
  | some i => if r.getD i 0 = 46 then path.drop (path.length - 1 - i) else []

/-- HasMp4Ext (mp4_reader.cpp lines 46-53). -/
def HasMp4Ext (path : List Nat) : Bool :=
  let ext := pathExt path
  if ext = [] then false
  else
    eqNoCaseA ext [46, 109, 52, 97] || eqNoCaseA ext [46, 109, 52, 98] ||
    eqNoCaseA ext [46, 109, 112, 52] || eqNoCaseA ext [46, 109, 52, 118] ||
    eqNoCaseA ext [46, 109, 111, 118]

/-- The size/payload validation at the end of ReadBoxHeader
(mp4_reader.cpp lines 108-118). -/
def boxCheck (off limit size ty payload : Nat) : Option (Nat × Nat × Nat) :=
  if size < sub64 payload off then none
  else if limit < (off + size) % qwordMod then none
  else some (size, ty, payload)

/-- ReadBoxHeader (mp4_reader.cpp lines 79-119): returns
(total size, FourCC type, payload offset). -/
def ReadBoxHeader (f : ByteFile) (off limit : Nat) : Option (Nat × Nat × Nat) :=
  if limit < (off + 8) % qwordMod then none
  else
    match f.ReadAt off 8 with
    | none => none
    | some hdr =>
      let size0 := BE32 hdr
      let ty := BE32 (hdr.drop 4)
      if size0 = 1 then
        if limit < (off + 16) % qwordMod then none
        else
          match f.ReadAt ((off + 8) % qwordMod) 8 with
          | none => none
          | some ex => boxCheck off limit (BE64 ex) ty ((off + 16) % qwordMod)
      else if size0 = 0 then boxCheck off limit (sub64 limit off) ty ((off + 8) % qwordMod)
      else boxCheck off limit size0 ty ((off + 8) % qwordMod)

/-- FindFirstBox (mp4_reader.cpp lines 139-166): linear sibling scan. -/
def FindFirstBox (f : ByteFile) (fourcc : Nat) : Nat → Nat → Nat → Option (Nat × Nat)
  | 0, _, _ => none
  | fuel + 1, pos, limit =>
    if (pos + 8) % qwordMod ≤ limit then
      match ReadBoxHeader f pos limit with
      | none => none
      | some (size, ty, _) =>
        if ty = fourcc then some (pos, size)
        else FindFirstBox f fourcc fuel ((pos + size) % qwordMod) limit
    else none

/-- The fuel given to the box walks: far more iterations than any walk
over a file of this size can make (each step advances at least 8 bytes
unless a 64-bit size wraps). -/
def mp4Fuel (f : ByteFile) : Nat := f.size + 4294967296

/-- FindChildBox (mp4_reader.cpp lines 188-207), with the 4-byte
version/flags skip for 'meta' parents. -/
def FindChildBox (f : ByteFile) (parentOff parentSize fourcc : Nat) : Option (Nat × Nat) :=
  let pLimit := (parentOff + parentSize) % qwordMod
  match ReadBoxHeader f parentOff pLimit with
  | none => none
  | some (_, pType, payload) =>
    if pType = FCC 109 101 116 97 then
      if pLimit < (payload + 4) % qwordMod then none
      else FindFirstBox f fourcc (mp4Fuel f) ((payload + 4) % qwordMod) pLimit
    else FindFirstBox f fourcc (mp4Fuel f) payload pLimit

/-- The 'data' sub-box scan inside 'covr' (mp4_reader.cpp lines 301-355):
skip the 8-byte type/locale prefix, accept a payload only when
`0 < imgLen < 32 MiB`, decode it, and on rejection or failure move to the
next sibling box. -/
def mp4CovrScan (f : ByteFile) (dec : List Nat → Bool) : Nat → Nat → Nat → Option (List Nat)
  | 0, _, _ => none
  | fuel + 1, pos, covrLimit =>
    if (pos + 8) % qwordMod ≤ covrLimit then
      match ReadBoxHeader f pos covrLimit with
      | none => none
      | some (dSz, dTy, dPay) =>
        let next := (pos + dSz) % qwordMod
        if dTy = FCC 100 97 116 97 then
          if (dPay + 8) % qwordMod ≤ (pos + dSz) % qwordMod then
            let imgOff := (dPay + 8) % qwordMod
            let imgLen := sub64 ((pos + dSz) % qwordMod) imgOff
            if 0 < imgLen ∧ imgLen < 33554432 then
              match f.ReadAt imgOff imgLen with
              | some img =>
                if dec img then some img else mp4CovrScan f dec fuel next covrLimit
              | none => mp4CovrScan f dec fuel next covrLimit
            else mp4CovrScan f dec fuel next covrLimit
          else mp4CovrScan f dec fuel next covrLimit
        else mp4CovrScan f dec fuel next covrLimit
    else none

/-- MP4_LoadCoverToBitmapA (mp4_reader.cpp lines 242-360). -/
def MP4_LoadCoverToBitmapA (path : List Nat) (dec : List Nat → Bool) (f : ByteFile) :
    Option (List Nat) :=
  if path = [] ∨ ¬ HasMp4Ext path then none
  else
    let fileLimit := f.GetSize
    if fileLimit < 16 then none
    else
      match FindFirstBox f (FCC 102 116 121 112) (mp4Fuel f) 0 fileLimit with
      | none => none
      | some _ =>
        match FindFirstBox f (FCC 109 111 111 118) (mp4Fuel f) 0 fileLimit with
        | none => none
        | some (moovOff, moovSz) =>
          match FindChildBox f moovOff moovSz (FCC 117 100 116 97) with
          | none => none
          | some (udtaOff, udtaSz) =>
            match FindChildBox f udtaOff udtaSz (FCC 109 101 116 97) with
            | none => none
            | some (metaOff, metaSz) =>
              match FindChildBox f metaOff metaSz (FCC 105 108 115 116) with
              | none => none
              | some (ilstOff, ilstSz) =>
                match FindChildBox f ilstOff ilstSz (FCC 99 111 118 114) with
                | none => none
                | some (covrOff, covrSz) =>
                  let covrLimit := (covrOff + covrSz) % qwordMod
                  match ReadBoxHeader f covrOff covrLimit with
                  | none => none
                  | some (_, _, payload) =>
                    mp4CovrScan f dec (mp4Fuel f) payload covrLimit

/-!
Cover resolver (src/cover_window.cpp lines 290-295): the if/else-if chain
over the four extractors.  `tryChain` models the chain over an ordered
list of results and also counts how many entries the chain examined, so
that "later extractors are not invoked after a success" is visible.
-/

/-- First-success chain with the number of entries examined. -/
def tryChain {α : Type} : List (Option α) → Option α × Nat
  | [] => (none, 0)
  | o :: rest =>
    match o with
    | some x => (some x, 1)
    | none =>
      let r := tryChain rest
      (r.1, r.2 + 1)

/-- The embedded-artwork chain of LoadForPathA (cover_window.cpp lines
292-295): ID3v2, then FLAC, then MP4, then APE. -/
def LoadForPathA (path : List Nat) (dec : List Nat → Bool) (f : ByteFile) :
    Option (List Nat) × Nat :=
  tryChain [ID3v2_LoadCoverToBitmapA dec f, FLAC_LoadCoverToBitmapA dec f,
    MP4_LoadCoverToBitmapA path dec f, (APE_LoadCoverToBitmapA dec f).join]

/-!
Concrete sample files used by the theorems below.
-/

/-- A well-formed minimal ID3v2.3 file: 10-byte header (tag size 18),
one APIC frame (size 8) whose body is encoding 0, MIME "i", picture type
3, empty description, and a 3-byte image payload ending at offset 28. -/
def id3Sample : List Nat :=
  [73, 68, 51, 3, 0, 0, 0, 0, 0, 18, 65, 80, 73, 67, 0, 0, 0, 8, 0, 0,
   0, 105, 0, 3, 0, 255, 216, 1]

/-- The ID3v2 sample truncated to its first `n` bytes. -/
def id3SampleF (n : Nat) : ByteFile := ⟨n, fun i => id3Sample.getD i 0⟩

/-- A well-formed minimal FLAC file: "fLaC", one last PICTURE block
(type 3, MIME "j", empty description, 3 data bytes) ending at offset 44. -/
def flacSample : List Nat :=
  [102, 76, 97, 67, 134, 0, 0, 36, 0, 0, 0, 3, 0, 0, 0, 1, 106, 0, 0, 0, 0] ++
  List.replicate 16 0 ++ [0, 0, 0, 3, 250, 251, 252]

/-- The FLAC sample truncated to its first `n` bytes. -/
def flacSampleF (n : Nat) : ByteFile := ⟨n, fun i => flacSample.getD i 0⟩

/-- A well-formed minimal APE file: 20 junk bytes, one tag item
(key "cover", value "a", 0, then image bytes [1,2,3] ending at offset 39)
and the 32-byte footer (tag size 51) at offsets 39..71. -/
def apeSample : List Nat :=
  List.replicate 20 65 ++
  [5, 0, 0, 0, 0, 0, 0, 0, 99, 111, 118, 101, 114, 0, 97, 0, 1, 2, 3] ++
  [65, 80, 69, 84, 65, 71, 69, 88, 208, 7, 0, 0, 51, 0, 0, 0, 1, 0, 0, 0, 0, 0, 0, 0] ++
  List.replicate 8 0

/-- The APE sample truncated to its first `n` bytes. -/
def apeSampleF (n : Nat) : ByteFile := ⟨n, fun i => apeSample.getD i 0⟩

/-- The tag-body bytes of the APE sample (its 19 item bytes). -/
def apeBodySample : List Nat :=
  [5, 0, 0, 0, 0, 0, 0, 0, 99, 111, 118, 101, 114, 0, 97, 0, 1, 2, 3]

/-- A well-formed minimal MP4 file, path extension `.m4a`:
ftyp, then moov / udta / meta / ilst / covr / data with a 3-byte image
payload ending at offset 79. -/
def mp4Sample : List Nat :=
  [0, 0, 0, 16, 102, 116, 121, 112, 0, 0, 0, 0, 0, 0, 0, 0] ++
  [0, 0, 0, 63, 109, 111, 111, 118] ++
  [0, 0, 0, 55, 117, 100, 116, 97] ++
  [0, 0, 0, 47, 109, 101, 116, 97] ++ [0, 0, 0, 0] ++
  [0, 0, 0, 35, 105, 108, 115, 116] ++
  [0, 0, 0, 27, 99, 111, 118, 114] ++
  [0, 0, 0, 19, 100, 97, 116, 97] ++ [0, 0, 0, 14, 0, 0, 0, 0] ++ [9, 8, 7]

/-- The MP4 sample truncated to its first `n` bytes. -/
def mp4SampleF (n : Nat) : ByteFile := ⟨n, fun i => mp4Sample.getD i 0⟩

/-- The path "a.m4a". -/
def mp4Path : List Nat := [97, 46, 109, 52, 97]

/-- An ID3v2.3 file whose tag declares size 11 but whose frame region
holds two 10-byte frame headers ("TIT2", size 0, twice): the frame loop
reads both headers (20 bytes) although the tag declared 11, and the
DWORD `remaining -= headerLen` wraps on the second iteration. -/
def id3OverconsumeList : List Nat :=
  [73, 68, 51, 3, 0, 0, 0, 0, 0, 11, 84, 73, 84, 50, 0, 0, 0, 0, 0, 0,
   84, 73, 84, 50, 0, 0, 0, 0, 0, 0]

/-- The over-consumption file. -/
def id3OverconsumeF : ByteFile := ⟨30, fun i => id3OverconsumeList.getD i 0⟩

/-- A 10-byte frame region starting with a "TIT2" header declaring frame
size 999 (a frame larger than any small remaining count). -/
def id3OversizeFrameF : ByteFile :=
  ⟨10, fun i => [84, 73, 84, 50, 0, 0, 3, 231, 0, 0].getD i 0⟩

/-- An ID3v2 file whose sync-safe tag size is 9 (below the minimum 10). -/
def id3TinyTagF : ByteFile :=
  ⟨10, fun i => [73, 68, 51, 3, 0, 0, 0, 0, 0, 9].getD i 0⟩

/-- An APE tag body with two items: key "FrontCover" whose value "x", 0
holds an empty image payload, and key "Cover" whose value 0, [7,7] holds
a 2-byte payload. -/
def apeTwoItemBody : List Nat :=
  [2, 0, 0, 0, 0, 0, 0, 0, 70, 114, 111, 110, 116, 67, 111, 118, 101, 114, 0, 120, 0] ++
  [3, 0, 0, 0, 0, 0, 0, 0, 67, 111, 118, 101, 114, 0, 0, 7, 7]

/-- A 4 GiB + 4 KiB file whose true last-4096-byte window (offsets at and
above `2^32`) is all zeros, but which carries an "APETAGEX" record with a
valid size at offsets 4294967263..4294967294 — inside the window that
`GetSize = 0xFFFFFFFF` makes the footer scan read. -/
def bigApeAt (i : Nat) : Nat :=
  if i = 4294967263 then 65 else if i = 4294967264 then 80
  else if i = 4294967265 then 69 else if i = 4294967266 then 84
  else if i = 4294967267 then 65 else if i = 4294967268 then 71
  else if i = 4294967269 then 69 else if i = 4294967270 then 88
  else if i = 4294967275 then 32 else 0

/-- The over-4-GiB APE file. -/
def bigApeF : ByteFile := ⟨4294971392, bigApeAt⟩

/-- A 4 GiB file (for the GetSize counterexample). -/
def bigPlainF : ByteFile := ⟨4294967296, fun _ => 0⟩

/-- A 16-byte fragment holding one `data` box header that declares box
size 33554448, so its image payload length is exactly 32 MiB. -/
def mp4DataRejF : ByteFile :=
  ⟨16, fun i => [2, 0, 0, 16, 100, 97, 116, 97, 0, 0, 0, 0, 0, 0, 0, 0].getD i 0⟩

/-- A 16-byte fragment holding one `data` box header that declares box
size 33554447, so its image payload length is exactly 32 MiB - 1. -/
def mp4DataAccF : ByteFile :=
  ⟨16, fun i => [2, 0, 0, 15, 100, 97, 116, 97, 0, 0, 0, 0, 0, 0, 0, 0].getD i 0⟩

/-- A 34-byte `covr` payload region with two sibling `data` boxes: the
first has a zero-length image payload, the second a 2-byte payload. -/
def mp4TwoDataF : ByteFile :=
  ⟨34, fun i =>
    ([0, 0, 0, 16, 100, 97, 116, 97, 0, 0, 0, 0, 0, 0, 0, 0] ++
     [0, 0, 0, 18, 100, 97, 116, 97, 0, 0, 0, 0, 0, 0, 0, 0, 5, 5]).getD i 0⟩

/-!
Theorems.  Each claim of the specification gets exactly one theorem,
named `spec_cN…`; shared helper lemmas come first.
-/

/-- The split into high/low DWORD halves that ReadAt performs loses
nothing for offsets below `2^63`. -/
theorem readAtOffsetUsed_eq {off : Nat} (h : off < 9223372036854775808) :
    readAtOffsetUsed off = off := by
  simp only [readAtOffsetUsed, dwordMod, Nat.shiftRight_eq_div_pow]
  omega

/-- Claim C8 (counterexample): for a file of exactly `2^32` bytes,
`FileHandle::GetSize` (a DWORD, GetFileSize with NULL high part) returns
INVALID_FILE_SIZE = 4294967295, not the true 64-bit length, so the size
query is not the claimed full u64. -/
theorem spec_c8_counterexample :
    ByteFile.GetSize bigPlainF = 4294967295 ∧ bigPlainF.size = 4294967296 ∧
      ByteFile.GetSize bigPlainF ≠ bigPlainF.size := by
  refine ⟨rfl, rfl, ?_⟩
  intro h
  simp [ByteFile.GetSize, win32GetFileSize, bigPlainF] at h

/-- Claim C8 (amended): ReadAt splits its 64-bit offset into high/low
halves whose recombination is exact below `2^63`, so positioned reads are
never performed at a 32-bit-wrapped offset (beyond-4-GiB offsets work);
GetSize, however, is a 32-bit query that reports the true length exactly
for files smaller than 4 GiB. -/
theorem spec_c8_amended :
    (∀ off : Nat, off < 9223372036854775808 → readAtOffsetUsed off = off) ∧
    (∀ (sz : Nat) (b : Nat → Nat), ByteFile.GetSize ⟨sz, b⟩ = sz ↔ sz < 4294967296) ∧
    (∀ (f : ByteFile) (off cnt : Nat), off < 9223372036854775808 → cnt ≠ 0 →
      f.ReadAt off cnt = if off + cnt ≤ f.size then some (readBytes f off cnt) else none) := by
  refine ⟨fun off h => readAtOffsetUsed_eq h, ?_, ?_⟩
  · intro sz b
    simp only [ByteFile.GetSize, win32GetFileSize]
    by_cases h : sz < 4294967296 <;> simp [h] <;> omega
  · intro f off cnt h hc
    simp only [ByteFile.ReadAt, readAtOffsetUsed_eq h, if_neg (by omega : ¬ 9223372036854775808 ≤ off),
      if_neg hc]

/-- Witness for C8 (amended): a beyond-4-GiB offset recombines exactly and
a small file's size is reported exactly. -/
theorem spec_c8_witness :
    readAtOffsetUsed 4294967306 = 4294967306 ∧
      ByteFile.GetSize ⟨100, fun _ => 0⟩ = 100 :=
  ⟨spec_c8_amended.1 4294967306 (by norm_num),
   (spec_c8_amended.2.1 100 (fun _ => 0)).mpr (by norm_num)⟩

/-- Claim C2: the resolver tries the extractors in the fixed order ID3v2,
FLAC, MP4, APE; it returns the first success and, once an extractor has
succeeded, the number of chain entries examined shows the later ones are
not consulted (the result is also independent of what they would
return). -/
theorem spec_c2_resolver_order (path : List Nat) (dec : List Nat → Bool) (f : ByteFile) :
    LoadForPathA path dec f =
      tryChain [ID3v2_LoadCoverToBitmapA dec f, FLAC_LoadCoverToBitmapA dec f,
        MP4_LoadCoverToBitmapA path dec f, (APE_LoadCoverToBitmapA dec f).join] ∧
    (∀ x, ID3v2_LoadCoverToBitmapA dec f = some x →
      ∀ o2 o3 o4, tryChain [ID3v2_LoadCoverToBitmapA dec f, o2, o3, o4] = (some x, 1)) ∧
    (∀ x, ID3v2_LoadCoverToBitmapA dec f = none → FLAC_LoadCoverToBitmapA dec f = some x →
      ∀ o3 o4, tryChain [ID3v2_LoadCoverToBitmapA dec f, FLAC_LoadCoverToBitmapA dec f, o3, o4] =
        (some x, 2)) ∧
    (∀ x, ID3v2_LoadCoverToBitmapA dec f = none → FLAC_LoadCoverToBitmapA dec f = none →
      MP4_LoadCoverToBitmapA path dec f = some x →
      ∀ o4, tryChain [ID3v2_LoadCoverToBitmapA dec f, FLAC_LoadCoverToBitmapA dec f,
        MP4_LoadCoverToBitmapA path dec f, o4] = (some x, 3)) ∧
    (ID3v2_LoadCoverToBitmapA dec f = none → FLAC_LoadCoverToBitmapA dec f = none →
      MP4_LoadCoverToBitmapA path dec f = none →
      LoadForPathA path dec f = ((APE_LoadCoverToBitmapA dec f).join, 4)) := by
  refine ⟨rfl, ?_, ?_, ?_, ?_⟩
  · intro x h o2 o3 o4; simp [tryChain, h]
  · intro x h1 h2 o3 o4; simp [tryChain, h1, h2]
  · intro x h1 h2 h3 o4; simp [tryChain, h1, h2, h3]
  · intro h1 h2 h3
    rcases hA : APE_LoadCoverToBitmapA dec f with _ | oa
    · simp [LoadForPathA, tryChain, h1, h2, h3, hA, Option.join]
    · cases oa <;> simp [LoadForPathA, tryChain, h1, h2, h3, hA, Option.join]

/-- Witness for C2: on the ID3v2 sample file the chain stops after the
first extractor with its payload. -/
theorem spec_c2_witness :
    LoadForPathA [] (fun _ => true) (id3SampleF 28) = (some [255, 216, 1], 1) := by
  have t := spec_c2_resolver_order [] (fun _ => true) (id3SampleF 28)
  exact t.1.trans (t.2.1 [255, 216, 1] (by decide) _ _ _)

/-- Claim C1: for each of the four formats, truncating the well-formed
sample file anywhere before the end of the image payload makes the
extractor return a clean no-cover result, for every decoder: `some none`
for the instrumented ID3v2/APE extractors (so in particular no unguarded
buffer access fired and no wrapped length was used to index), `none` for
FLAC/MP4 whose accesses are all guarded.  The even-numbered conjuncts
show the same files at full length do yield their covers, so the payload
really ends at the stated offset. -/
theorem spec_c1_truncation_safety :
    (∀ (dec : List Nat → Bool) (n : Nat), n < 28 →
      (ID3v2_run dec (id3SampleF n)).1 = some none) ∧
    ID3v2_LoadCoverToBitmapA (fun _ => true) (id3SampleF 28) = some [255, 216, 1] ∧
    (∀ (dec : List Nat → Bool) (n : Nat), n < 44 →
      FLAC_LoadCoverToBitmapA dec (flacSampleF n) = none) ∧
    FLAC_LoadCoverToBitmapA (fun _ => true) (flacSampleF 44) = some [250, 251, 252] ∧
    (∀ (dec : List Nat → Bool) (n : Nat), n < 39 →
      APE_LoadCoverToBitmapA dec (apeSampleF n) = some none) ∧
    APE_LoadCoverToBitmapA (fun _ => true) (apeSampleF 71) = some (some [1, 2, 3]) ∧
    (∀ (dec : List Nat → Bool) (n : Nat), n < 79 →
      MP4_LoadCoverToBitmapA mp4Path dec (mp4SampleF n) = none) ∧
    MP4_LoadCoverToBitmapA mp4Path (fun _ => true) (mp4SampleF 79) = some [9, 8, 7] := by
  refine ⟨?_, rfl, ?_, rfl, ?_, rfl, ?_, rfl⟩ <;>
    (intro dec n hn; interval_cases n <;> rfl)

/-- Witness for C1: each truncation statement applied at a concrete
truncation point and decoder. -/
theorem spec_c1_witness :
    (ID3v2_run (fun _ => false) (id3SampleF 27)).1 = some none ∧
    FLAC_LoadCoverToBitmapA (fun _ => false) (flacSampleF 43) = none ∧
    APE_LoadCoverToBitmapA (fun _ => false) (apeSampleF 38) = some none ∧
    MP4_LoadCoverToBitmapA mp4Path (fun _ => false) (mp4SampleF 78) = none :=
  ⟨spec_c1_truncation_safety.1 _ 27 (by norm_num),
   spec_c1_truncation_safety.2.2.1 _ 43 (by norm_num),
   spec_c1_truncation_safety.2.2.2.2.1 _ 38 (by norm_num),
   spec_c1_truncation_safety.2.2.2.2.2.2.1 _ 78 (by norm_num)⟩

/-- Claim C9: with a valid "ID3" magic, a sync-safe tag size below 10 or
above 32 MiB makes ID3v2_LoadCoverToBitmapA return FALSE with the cursor
still at 10 — only the header was read, no frame; a size within
[10, 32 MiB] passes the guard and control reaches the extended-header /
frame-iteration stage. -/
theorem spec_c9_size_guard (dec : List Nat → Bool) (f : ByteFile) (hdr : List Nat)
    (s1 : FState)
    (hread : FState.read ⟨f, 0⟩ 10 = (some hdr, s1))
    (hmagic : hdr.take 3 = [73, 68, 51]) :
    ((SyncSafeToInt (hdr.drop 6) < 10 ∨ 33554432 < SyncSafeToInt (hdr.drop 6)) →
      ID3v2_run dec f = (some none, 10)) ∧
    (10 ≤ SyncSafeToInt (hdr.drop 6) → SyncSafeToInt (hdr.drop 6) ≤ 33554432 →
      ID3v2_run dec f = ID3v2_afterHeader dec s1 (hdr.getD 3 0) (hdr.getD 5 0)
        (SyncSafeToInt (hdr.drop 6))) := by
  have hp : s1.pos = 10 := by
    simp only [FState.read, if_neg (by norm_num : ¬(10 : Nat) = 0)] at hread
    by_cases hsz : 0 + 10 ≤ f.size
    · rw [if_pos hsz] at hread
      cases hread
      rfl
    · rw [if_neg hsz] at hread
      simp at hread
  constructor
  · intro h
    simp only [ID3v2_run, hread, if_pos hmagic, if_pos h, hp]
  · intro h1 h2
    simp only [ID3v2_run, hread, if_pos hmagic,
      if_neg (by omega : ¬(SyncSafeToInt (hdr.drop 6) < 10 ∨
        33554432 < SyncSafeToInt (hdr.drop 6)))]

/-- Witness for C9: a file declaring tag size 9 is rejected with the
cursor at 10. -/
theorem spec_c9_witness : ID3v2_run (fun _ => true) id3TinyTagF = (some none, 10) :=
  (spec_c9_size_guard (fun _ => true) id3TinyTagF [73, 68, 51, 3, 0, 0, 0, 0, 0, 9]
    ⟨id3TinyTagF, 10⟩ rfl (by decide)).1 (by decide)

/-- Claim C5 (counterexample): the ID3v2 frame loop reads a full frame
header whenever `remaining > 0` without first checking that the header
itself fits, so the cumulative bytes consumed for frame headers and
bodies can exceed the tag's declared size.  On `id3OverconsumeF` the tag
declares size 11 but the loop consumes two 10-byte frame headers: the
final cursor is 30, that is 20 bytes past the 10-byte tag header, and
`remaining -= headerLen` wrapped below zero on the second iteration. -/
theorem spec_c5_counterexample :
    SyncSafeToInt (id3OverconsumeList.drop 6) = 11 ∧
    ID3v2_run (fun _ => true) id3OverconsumeF = (some none, 30) ∧
    11 + 10 < 30 := by decide

/-- Claim C5 (amended): a frame whose declared size exceeds the remaining
tag bytes is rejected and the frame loop stops cleanly, consuming nothing
beyond that frame's header; the cumulative-consumption invariant of the
original claim does not hold (see the counterexample). -/
theorem spec_c5_amended (dec : List Nat → Bool) (ver fuel remaining : Nat)
    (s s1 : FState) (fh : List Nat)
    (hrem : remaining ≠ 0)
    (hread : s.read (if ver = 2 then 6 else 10) = (some fh, s1))
    (hpad : ¬ fh.getD 0 0 = 0)
    (hover : remaining <
      (if ver = 2 then BE24 (fh.drop 3)
       else if ver = 4 then SyncSafeToInt (fh.drop 4) else BE32 (fh.drop 4))) :
    id3FrameLoop dec ver (fuel + 1) s remaining = (some none, s1.pos) := by
  simp only [id3FrameLoop, hread, if_neg hrem, if_neg hpad, if_pos hover]

/-- Witness for C5 (amended): a frame declaring size 999 against a
remaining count of 10 stops the loop right after its header. -/
theorem spec_c5_witness :
    id3FrameLoop (fun _ => true) 3 1 ⟨id3OversizeFrameF, 0⟩ 10 = (some none, 10) :=
  spec_c5_amended (fun _ => true) 3 0 10 ⟨id3OversizeFrameF, 0⟩ ⟨id3OversizeFrameF, 10⟩
    [84, 73, 84, 50, 0, 0, 3, 231, 0, 0] (by norm_num) rfl (by decide) (by decide)

/-- A successfully parsed box header implies the sibling-scan loop
condition held at its offset. -/
theorem ReadBoxHeader_guard {f : ByteFile} {pos limit : Nat} {r : Nat × Nat × Nat}
    (h : ReadBoxHeader f pos limit = some r) : (pos + 8) % qwordMod ≤ limit := by
  by_cases hg : limit < (pos + 8) % qwordMod
  · rw [ReadBoxHeader, if_pos hg] at h
    exact absurd h (by simp)
  · omega

/-- One step of the `covr` scan at a parsed `data` box: the payload is
read and decoded exactly when `0 < imgLen < 32 MiB`, otherwise the scan
moves to the next sibling box. -/
theorem mp4CovrScan_step (f : ByteFile) (dec : List Nat → Bool)
    (fuel pos limit dSz dPay : Nat)
    (hbox : ReadBoxHeader f pos limit = some (dSz, FCC 100 97 116 97, dPay))
    (hfit : (dPay + 8) % qwordMod ≤ (pos + dSz) % qwordMod) :
    ((sub64 ((pos + dSz) % qwordMod) ((dPay + 8) % qwordMod) = 0 ∨
        33554432 ≤ sub64 ((pos + dSz) % qwordMod) ((dPay + 8) % qwordMod)) →
      mp4CovrScan f dec (fuel + 1) pos limit =
        mp4CovrScan f dec fuel ((pos + dSz) % qwordMod) limit) ∧
    (0 < sub64 ((pos + dSz) % qwordMod) ((dPay + 8) % qwordMod) →
      sub64 ((pos + dSz) % qwordMod) ((dPay + 8) % qwordMod) < 33554432 →
      mp4CovrScan f dec (fuel + 1) pos limit =
        match f.ReadAt ((dPay + 8) % qwordMod)
            (sub64 ((pos + dSz) % qwordMod) ((dPay + 8) % qwordMod)) with
        | some img =>
          if dec img then some img
          else mp4CovrScan f dec fuel ((pos + dSz) % qwordMod) limit
        | none => mp4CovrScan f dec fuel ((pos + dSz) % qwordMod) limit) := by
  have hg := ReadBoxHeader_guard hbox
  constructor
  · intro hrej
    simp only [mp4CovrScan, if_pos hg, hbox, if_pos rfl, if_pos hfit,
      if_neg (by omega : ¬(0 < sub64 ((pos + dSz) % qwordMod) ((dPay + 8) % qwordMod) ∧
        sub64 ((pos + dSz) % qwordMod) ((dPay + 8) % qwordMod) < 33554432))]
    simp
  · intro h1 h2
    simp only [mp4CovrScan, if_pos hg, hbox, if_pos rfl, if_pos hfit,
      if_pos (And.intro h1 h2)]
    simp

/-- Claim C6: at a `data` sub-box inside `covr` whose computed image
length is `imgLen`, the scan reads the payload and hands it to the
decoder exactly when `0 < imgLen < 32 MiB` (so an `imgLen` of
32 MiB - 1 is read and decoded), and otherwise — `imgLen = 0` or
`imgLen >= 32 MiB` — moves straight to the next sibling box without
touching the payload. -/
theorem spec_c6_size_limit (f : ByteFile) (dec : List Nat → Bool)
    (fuel pos limit dSz dPay : Nat)
    (hbox : ReadBoxHeader f pos limit = some (dSz, FCC 100 97 116 97, dPay))
    (hfit : (dPay + 8) % qwordMod ≤ (pos + dSz) % qwordMod) :
    ((sub64 ((pos + dSz) % qwordMod) ((dPay + 8) % qwordMod) = 0 ∨
        33554432 ≤ sub64 ((pos + dSz) % qwordMod) ((dPay + 8) % qwordMod)) →
      mp4CovrScan f dec (fuel + 1) pos limit =
        mp4CovrScan f dec fuel ((pos + dSz) % qwordMod) limit) ∧
    (0 < sub64 ((pos + dSz) % qwordMod) ((dPay + 8) % qwordMod) →
      sub64 ((pos + dSz) % qwordMod) ((dPay + 8) % qwordMod) < 33554432 →
      mp4CovrScan f dec (fuel + 1) pos limit =
        match f.ReadAt ((dPay + 8) % qwordMod)
            (sub64 ((pos + dSz) % qwordMod) ((dPay + 8) % qwordMod)) with
        | some img =>
          if dec img then some img
          else mp4CovrScan f dec fuel ((pos + dSz) % qwordMod) limit
        | none => mp4CovrScan f dec fuel ((pos + dSz) % qwordMod) limit) :=
  mp4CovrScan_step f dec fuel pos limit dSz dPay hbox hfit

/-- Witness for C6: a `data` box declaring a 32 MiB payload is skipped
(the scan result equals the scan from the next sibling), while one
declaring 32 MiB - 1 proceeds to the payload read. -/
theorem spec_c6_witness :
    mp4CovrScan mp4DataRejF (fun _ => true) 2 0 40000000 =
      mp4CovrScan mp4DataRejF (fun _ => true) 1 33554448 40000000 ∧
    mp4CovrScan mp4DataAccF (fun _ => true) 2 0 40000000 =
      (match mp4DataAccF.ReadAt 16 33554431 with
       | some img =>
         if (fun _ => true) img then some img
         else mp4CovrScan mp4DataAccF (fun _ => true) 1 33554447 40000000
       | none => mp4CovrScan mp4DataAccF (fun _ => true) 1 33554447 40000000) :=
  ⟨(spec_c6_size_limit mp4DataRejF (fun _ => true) 1 0 40000000 33554448 8
      (by decide) (by decide)).1 (Or.inr (by decide)),
   (spec_c6_size_limit mp4DataAccF (fun _ => true) 1 0 40000000 33554447 8
      (by decide) (by decide)).2 (by decide) (by decide)⟩

/-- Claim C10: rejecting one `data` sub-box — zero-length or over-32-MiB
payload, a failed payload read, or a decoder rejection — does not abort
the `covr` scan: whenever the continuation of the scan from the next
sibling box yields an image, the scan including the rejected box yields
that same image. -/
theorem spec_c10_rejection_continues (f : ByteFile) (dec : List Nat → Bool)
    (fuel pos limit dSz dPay : Nat) (img : List Nat)
    (hbox : ReadBoxHeader f pos limit = some (dSz, FCC 100 97 116 97, dPay))
    (hfit : (dPay + 8) % qwordMod ≤ (pos + dSz) % qwordMod)
    (hnext : mp4CovrScan f dec fuel ((pos + dSz) % qwordMod) limit = some img) :
    ((sub64 ((pos + dSz) % qwordMod) ((dPay + 8) % qwordMod) = 0 ∨
        33554432 ≤ sub64 ((pos + dSz) % qwordMod) ((dPay + 8) % qwordMod)) →
      mp4CovrScan f dec (fuel + 1) pos limit = some img) ∧
    (0 < sub64 ((pos + dSz) % qwordMod) ((dPay + 8) % qwordMod) →
      sub64 ((pos + dSz) % qwordMod) ((dPay + 8) % qwordMod) < 33554432 →
      f.ReadAt ((dPay + 8) % qwordMod)
          (sub64 ((pos + dSz) % qwordMod) ((dPay + 8) % qwordMod)) = none →
      mp4CovrScan f dec (fuel + 1) pos limit = some img) ∧
    (∀ bytes, 0 < sub64 ((pos + dSz) % qwordMod) ((dPay + 8) % qwordMod) →
      sub64 ((pos + dSz) % qwordMod) ((dPay + 8) % qwordMod) < 33554432 →
      f.ReadAt ((dPay + 8) % qwordMod)
          (sub64 ((pos + dSz) % qwordMod) ((dPay + 8) % qwordMod)) = some bytes →
      dec bytes = false →
      mp4CovrScan f dec (fuel + 1) pos limit = some img) := by
  have hg := ReadBoxHeader_guard hbox
  refine ⟨?_, ?_, ?_⟩
  · intro hrej
    rw [(mp4CovrScan_step f dec fuel pos limit dSz dPay hbox hfit).1 hrej]
    exact hnext
  · intro h1 h2 hrd
    rw [(mp4CovrScan_step f dec fuel pos limit dSz dPay hbox hfit).2 h1 h2, hrd]
    exact hnext
  · intro bytes h1 h2 hrd hdec
    rw [(mp4CovrScan_step f dec fuel pos limit dSz dPay hbox hfit).2 h1 h2, hrd]
    simp [hdec, hnext]

/-- Witness for C10: in a `covr` region with a zero-payload `data` box
followed by a valid one, the scan returns the second payload. -/
theorem spec_c10_witness :
    mp4CovrScan mp4TwoDataF (fun _ => true) 2 0 34 = some [5, 5] :=
  (spec_c10_rejection_continues mp4TwoDataF (fun _ => true) 1 0 34 16 8 [5, 5]
    (by decide) (by decide) (by decide)).1 (Or.inl (by decide))

/-- Selection-policy step: a rejected candidate changes nothing. -/
theorem flacSelectAux_cons_ndec {dec : List Nat → Bool} {t : Nat} {img : List Nat}
    (l : List (Nat × List Nat)) (fb : Option (List Nat)) (h : dec img = false) :
    flacSelectAux dec ((t, img) :: l) fb = flacSelectAux dec l fb := by
  simp [flacSelectAux, h]

/-- Selection-policy step: a decoded type-3 candidate wins immediately. -/
theorem flacSelectAux_cons_dec3 {dec : List Nat → Bool} {t : Nat} {img : List Nat}
    (l : List (Nat × List Nat)) (fb : Option (List Nat)) (h : dec img = true)
    (ht : t = 3) :
    flacSelectAux dec ((t, img) :: l) fb = some img := by
  simp [flacSelectAux, h, ht]

/-- Selection-policy step: a decoded non-type-3 candidate becomes the
fallback if none is set. -/
theorem flacSelectAux_cons_decN {dec : List Nat → Bool} {t : Nat} {img : List Nat}
    (l : List (Nat × List Nat)) (fb : Option (List Nat)) (h : dec img = true)
    (ht : ¬ t = 3) :
    flacSelectAux dec ((t, img) :: l) fb =
      flacSelectAux dec l (if fb.isSome then fb else some img) := by
  simp [flacSelectAux, h, ht]

/-- The interleaved FLAC scan loop computes the same result as the
selection policy applied to the candidate list of the same byte walk. -/
theorem flacLoop_eq_parse (dec : List Nat → Bool) :
    ∀ (fuel : Nat) (s : FState) (fb : Option (List Nat)),
      flacLoop dec fuel s fb = flacSelectAux dec (flacParseBlocks fuel s) fb := by
  intro fuel
  induction fuel with
  | zero => intro s fb; rfl
  | succ n ih =>
    intro s fb
    simp only [flacLoop, flacParseBlocks]
    cases hr : s.read 4 with
    | mk o s1 =>
      cases o with
      | none => simp [flacSelectAux]
      | some hdr =>
        simp only []
        by_cases hskip : hdr.getD 0 0 &&& 127 ≠ 6 ∨ 16777216 < BE24 (hdr.drop 1)
        · rw [if_pos hskip, if_pos hskip]
          by_cases hlast : hdr.getD 0 0 &&& 128 ≠ 0
          · rw [if_pos hlast, if_pos hlast]
            rfl
          · rw [if_neg hlast, if_neg hlast]
            exact ih _ _
        · rw [if_neg hskip, if_neg hskip]
          cases hb : s1.read (BE24 (hdr.drop 1)) with
          | mk ob s2 =>
            cases ob with
            | none =>
              simp only []
              by_cases hlast : hdr.getD 0 0 &&& 128 ≠ 0
              · rw [if_pos hlast, if_pos hlast]
                rfl
              · rw [if_neg hlast, if_neg hlast]
                exact ih _ _
            | some buf =>
              simp only []
              cases hp : flacParsePicture buf with
              | none =>
                simp only []
                by_cases hlast : hdr.getD 0 0 &&& 128 ≠ 0
                · rw [if_pos hlast, if_pos hlast]
                  rfl
                · rw [if_neg hlast, if_neg hlast]
                  exact ih _ _
              | some c =>
                obtain ⟨t, img⟩ := c
                simp only []
                by_cases hdec : dec img = true
                · rw [if_pos hdec]
                  by_cases ht : t = 3
                  · rw [if_pos ht, flacSelectAux_cons_dec3 _ _ hdec ht]
                  · rw [if_neg ht, flacSelectAux_cons_decN _ _ hdec ht]
                    by_cases hlast : hdr.getD 0 0 &&& 128 ≠ 0
                    · rw [if_pos hlast, if_pos hlast]
                      rfl
                    · rw [if_neg hlast, if_neg hlast]
                      exact ih _ _
                · have hdec1 : dec img = false := by simpa using hdec
                  rw [if_neg hdec, flacSelectAux_cons_ndec _ _ hdec1]
                  by_cases hlast : hdr.getD 0 0 &&& 128 ≠ 0
                  · rw [if_pos hlast, if_pos hlast]
                    rfl
                  · rw [if_neg hlast, if_neg hlast]
                    exact ih _ _

/-- The selection policy over a candidate list in closed form: the first
decoded type-3 candidate, else the incoming fallback, else the first
decoded non-type-3 candidate. -/
theorem flacSelectAux_formula (dec : List Nat → Bool) :
    ∀ (l : List (Nat × List Nat)) (fb : Option (List Nat)),
      flacSelectAux dec l fb =
        ((l.find? (fun c => c.1 == 3 && dec c.2)).map Prod.snd <|>
          (fb <|> (l.find? (fun c => !(c.1 == 3) && dec c.2)).map Prod.snd)) := by
  intro l
  induction l with
  | nil => intro fb; cases fb <;> rfl
  | cons c rest ih =>
    intro fb
    obtain ⟨t, img⟩ := c
    by_cases hdec : dec img = true
    · by_cases ht : t = 3
      · rw [flacSelectAux_cons_dec3 _ _ hdec ht,
          List.find?_cons_of_pos _ (by simp [ht, hdec])]
        rfl
      · rw [flacSelectAux_cons_decN _ _ hdec ht, ih,
          List.find?_cons_of_neg _ (by simp [ht]),
          List.find?_cons_of_pos _ (by simp [ht, hdec])]
        cases fb <;>
          cases hfr : rest.find? (fun c => c.1 == 3 && dec c.2) <;>
            simp [Option.orElse]
    · have hdec1 : dec img = false := by simpa using hdec
      rw [flacSelectAux_cons_ndec _ _ hdec1, ih,
        List.find?_cons_of_neg _ (by simp [hdec1]),
        List.find?_cons_of_neg _ (by simp [hdec1])]

/-- Claim C3: FLAC_LoadCoverToBitmapA returns the first candidate picture
of type 3 whose payload decodes, regardless of where it sits in the block
sequence; failing that, the first decoded candidate of any other type;
and it returns FALSE exactly when no candidate decodes at all. -/
theorem spec_c3_front_cover_priority (dec : List Nat → Bool) (f : ByteFile) :
    FLAC_LoadCoverToBitmapA dec f =
      (((FLAC_candidates f).find? (fun c => c.1 == 3 && dec c.2)).map Prod.snd <|>
        ((FLAC_candidates f).find? (fun c => !(c.1 == 3) && dec c.2)).map Prod.snd) ∧
    (FLAC_LoadCoverToBitmapA dec f = none ↔
      ∀ c ∈ FLAC_candidates f, dec c.2 = false) := by
  have h1 : FLAC_LoadCoverToBitmapA dec f =
      (((FLAC_candidates f).find? (fun c => c.1 == 3 && dec c.2)).map Prod.snd <|>
        ((FLAC_candidates f).find? (fun c => !(c.1 == 3) && dec c.2)).map Prod.snd) := by
    rw [FLAC_LoadCoverToBitmapA, FLAC_candidates]
    cases flacStart f with
    | none => rfl
    | some s =>
      simp only []
      rw [flacLoop_eq_parse, flacSelectAux_formula]
      cases (flacParseBlocks (f.size + 2) s).find? (fun c => c.1 == 3 && dec c.2) <;> rfl
  refine ⟨h1, ?_⟩
  rw [h1]
  constructor
  · intro h c hc
    have ha : (FLAC_candidates f).find? (fun c => c.1 == 3 && dec c.2) = none := by
      cases hx : (FLAC_candidates f).find? (fun c => c.1 == 3 && dec c.2) with
      | none => rfl
      | some z =>
        rw [hx] at h
        simp [Option.orElse] at h
    rw [ha] at h
    have hb : (FLAC_candidates f).find? (fun c => !(c.1 == 3) && dec c.2) = none := by
      cases hx : (FLAC_candidates f).find? (fun c => !(c.1 == 3) && dec c.2) with
      | none => rfl
      | some z =>
        rw [hx] at h
        simp [Option.orElse] at h
    rw [List.find?_eq_none] at ha hb
    by_cases ht : c.1 = 3
    · have h2 := ha c hc
      simpa [ht] using h2
    · have h2 := hb c hc
      simpa [ht] using h2
  · intro h
    have ha : (FLAC_candidates f).find? (fun c => c.1 == 3 && dec c.2) = none :=
      List.find?_eq_none.mpr (fun c hc => by simp [h c hc])
    have hb : (FLAC_candidates f).find? (fun c => !(c.1 == 3) && dec c.2) = none :=
      List.find?_eq_none.mpr (fun c hc => by simp [h c hc])
    rw [ha, hb]
    rfl

/-- Witness for C3: the sample FLAC file yields its front-cover payload,
matching the closed-form selection. -/
theorem spec_c3_witness :
    FLAC_LoadCoverToBitmapA (fun _ => true) (flacSampleF 44) = some [250, 251, 252] :=
  (spec_c3_front_cover_priority (fun _ => true) (flacSampleF 44)).1.trans (by decide)

/-- The running-best fold, started from a best `b`, returns a candidate
that is `b` or in the list, at least as good as `b`, and at least as good
as every list element ("as good" = lower rank, or equal rank and at least
the size). -/
theorem apeFold_some_spec :
    ∀ (l : List ApeCand) (b r : ApeCand),
      l.foldl apeBetter (some b) = some r →
        (r = b ∨ r ∈ l) ∧
        (r.rank ≤ b.rank ∧ (b.rank = r.rank → b.sz ≤ r.sz)) ∧
        (∀ c ∈ l, r.rank ≤ c.rank ∧ (c.rank = r.rank → c.sz ≤ r.sz)) := by
  intro l
  induction l with
  | nil =>
    intro b r h
    simp only [List.foldl_nil, Option.some.injEq] at h
    subst h
    exact ⟨Or.inl rfl, ⟨le_refl _, fun _ => le_refl _⟩, by simp⟩
  | cons c rest ih =>
    intro b r h
    rw [List.foldl_cons] at h
    by_cases hcond : c.rank < b.rank ∨ (c.rank = b.rank ∧ b.sz < c.sz)
    · rw [show apeBetter (some b) c = some c from by simp [apeBetter, hcond]] at h
      obtain ⟨hmem, hdom, hall⟩ := ih c r h
      have hrc1 : r.rank ≤ c.rank := hdom.1
      have hrc2 : c.rank = r.rank → c.sz ≤ r.sz := hdom.2
      refine ⟨?_, ?_, ?_⟩
      · rcases hmem with rfl | hm
        · exact Or.inr (List.mem_cons_self _ _)
        · exact Or.inr (List.mem_cons_of_mem _ hm)
      · rcases hcond with hlt | ⟨heq, hsz⟩
        · exact ⟨by omega, fun hbr => by omega⟩
        · refine ⟨by omega, fun hbr => ?_⟩
          have := hrc2 (by omega)
          omega
      · intro x hx
        rcases List.mem_cons.mp hx with rfl | hxm
        · exact hdom
        · exact hall x hxm
    · rw [show apeBetter (some b) c = some b from by simp [apeBetter, hcond]] at h
      obtain ⟨hmem, hdom, hall⟩ := ih b r h
      have hrb1 : r.rank ≤ b.rank := hdom.1
      refine ⟨?_, hdom, ?_⟩
      · rcases hmem with rfl | hm
        · exact Or.inl rfl
        · exact Or.inr (List.mem_cons_of_mem _ hm)
      · intro x hx
        rcases List.mem_cons.mp hx with rfl | hxm
        · push_neg at hcond
          obtain ⟨h1, h2⟩ := hcond
          refine ⟨by omega, fun hcr => ?_⟩
          have e1 : x.rank = b.rank := by omega
          have e2 : ¬ b.sz < x.sz := fun hh => absurd hh (by simpa using h2 e1)
          have e3 := hdom.2 (by omega)
          omega
        · exact hall x hxm

/-- The running-best fold never loses a best it already has. -/
theorem apeFold_some_ne_none :
    ∀ (l : List ApeCand) (b : ApeCand), l.foldl apeBetter (some b) ≠ none := by
  intro l
  induction l with
  | nil => intro b h; simp at h
  | cons c rest ih =>
    intro b h
    rw [List.foldl_cons] at h
    by_cases hcond : c.rank < b.rank ∨ (c.rank = b.rank ∧ b.sz < c.sz)
    · rw [show apeBetter (some b) c = some c from by simp [apeBetter, hcond]] at h
      exact ih c h
    · rw [show apeBetter (some b) c = some b from by simp [apeBetter, hcond]] at h
      exact ih b h

/-- `apeBest` is `none` exactly on the empty candidate list. -/
theorem apeBest_eq_none_iff (l : List ApeCand) : apeBest l = none ↔ l = [] := by
  constructor
  · intro h
    cases l with
    | nil => rfl
    | cons c rest =>
      rw [apeBest, List.foldl_cons, show apeBetter none c = some c from rfl] at h
      exact absurd h (apeFold_some_ne_none rest c)
  · intro h
    subst h
    rfl

/-- The candidate `apeBest` returns is in the list, has the minimum rank,
and the maximum payload size among candidates of that rank. -/
theorem apeBest_some_spec (l : List ApeCand) (r : ApeCand) (h : apeBest l = some r) :
    r ∈ l ∧ ∀ c ∈ l, r.rank ≤ c.rank ∧ (c.rank = r.rank → c.sz ≤ r.sz) := by
  cases l with
  | nil => simp [apeBest] at h
  | cons c rest =>
    rw [apeBest, List.foldl_cons, show apeBetter none c = some c from rfl] at h
    obtain ⟨hmem, hdom, hall⟩ := apeFold_some_spec rest c r h
    refine ⟨?_, ?_⟩
    · rcases hmem with rfl | hm
      · exact List.mem_cons_self _ _
      · exact List.mem_cons_of_mem _ hm
    · intro x hx
      rcases List.mem_cons.mp hx with rfl | hxm
      · exact hdom
      · exact hall x hxm

/-- Every candidate the item loop emits has a nonzero declared payload
size (the `imgLen > 0` filter at ape_reader.cpp line 129). -/
theorem apeItemsLoop_sz_pos :
    ∀ (fuel : Nat) (data : List Nat) (size pos : Nat) (cands : List ApeCand),
      apeItemsLoop data size fuel pos = some cands → ∀ c ∈ cands, 0 < c.sz := by
  intro fuel
  induction fuel with
  | zero =>
    intro data size pos cands h
    simp [apeItemsLoop] at h
  | succ n ih =>
    intro data size pos cands h
    simp only [apeItemsLoop] at h
    split at h
    · split at h
      · cases h
        simp
      · split at h
        · cases h
          simp
        · split at h
          · exact fun c hc => ih data size _ cands h c hc
          · split at h
            · exact absurd h (by simp)
            · split at h
              · exact absurd h (by simp)
              · rename_i rest hrest
                cases h
                intro c hc
                rw [apeConsCand] at hc
                split at hc
                · rcases List.mem_cons.mp hc with rfl | hm
                  · assumption
                  · exact ih data size _ rest hrest c hm
                · exact ih data size _ rest hrest c hc
    · cases h
      simp

/-- Claim C4 (counterexample): the claim's selection rule fails on a tag
body whose only rank-0 item ("FrontCover") carries an empty image
payload: the `imgLen > 0` filter drops it before ranking ever applies, so
the rank-1 item ("Cover") is the one decoded — not the strictly
lowest-ranked picture-keyed item of the list, as the claim demands. -/
theorem spec_c4_counterexample :
    apeRank [70, 114, 111, 110, 116, 67, 111, 118, 101, 114] = some 0 ∧
    apeRank [67, 111, 118, 101, 114] = some 1 ∧
    apeItemsLoop apeTwoItemBody 38 39 0 = some [⟨1, 2, [7, 7]⟩] ∧
    Ape_ParseItems (fun _ => true) apeTwoItemBody 38 = some (some [7, 7]) := by
  decide

/-- Claim C4 (amended): an item becomes a picture candidate iff its key —
lowercased, stripped of non-alphabetic characters and capped at 63
characters by the fixed normalization buffer — contains "cover" or
"picture" (rank 0 with "front", 2 with "back", else 1, per `apeRank`
inside the item loop) AND its image payload length is nonzero; the
candidate handed to the decoder has the minimum rank over all candidates
and the maximum payload size among candidates of that rank. -/
theorem spec_c4_amended (dec : List Nat → Bool) (data : List Nat) (size : Nat)
    (cands : List ApeCand)
    (h : apeItemsLoop data size (size + 1) (apeStart data size) = some cands) :
    Ape_ParseItems dec data size =
      (match apeBest cands with
       | none => some none
       | some b =>
         if b.sz = b.img.length then some (if dec b.img then some b.img else none)
         else none) ∧
    (apeBest cands = none ↔ cands = []) ∧
    (∀ c ∈ cands, 0 < c.sz) ∧
    (∀ r, apeBest cands = some r →
      r ∈ cands ∧ ∀ c ∈ cands, r.rank ≤ c.rank ∧ (c.rank = r.rank → c.sz ≤ r.sz)) := by
  refine ⟨?_, apeBest_eq_none_iff cands,
    apeItemsLoop_sz_pos (size + 1) data size (apeStart data size) cands h,
    fun r hr => apeBest_some_spec cands r hr⟩
  rw [Ape_ParseItems, h]

/-- Witness for C4 (amended): the sample tag body decodes its single
candidate. -/
theorem spec_c4_witness :
    Ape_ParseItems (fun _ => true) apeBodySample 19 = some (some [1, 2, 3]) :=
  ((spec_c4_amended (fun _ => true) apeBodySample 19 [⟨1, 3, [1, 2, 3]⟩]
    (by decide)).1).trans (by decide)

/-- A hit of the backward footer scan comes from some probe offset at or
below its starting offset. -/
theorem apeScanBack_some :
    ∀ (w : List Nat) (fS wB i : Nat) (loc : ApeLoc),
      apeScanBack w fS wB i = some loc →
        ∃ j, j ≤ i ∧ apeCheckAt w fS wB j = some loc := by
  intro w fS wB i
  induction i with
  | zero => exact fun loc h => ⟨0, le_refl 0, h⟩
  | succ n ih =>
    intro loc h
    simp only [apeScanBack] at h
    cases hc : apeCheckAt w fS wB (n + 1) with
    | some loc2 =>
      rw [hc] at h
      cases h
      exact ⟨n + 1, le_refl _, hc⟩
    | none =>
      rw [hc] at h
      obtain ⟨j, hj, hcj⟩ := ih loc h
      exact ⟨j, by omega, hcj⟩

/-- The backward footer scan misses exactly when every probe offset at or
below its starting offset misses. -/
theorem apeScanBack_none_iff :
    ∀ (w : List Nat) (fS wB i : Nat),
      apeScanBack w fS wB i = none ↔ ∀ j, j ≤ i → apeCheckAt w fS wB j = none := by
  intro w fS wB i
  induction i with
  | zero =>
    constructor
    · intro h j hj
      have hj0 : j = 0 := by omega
      subst hj0
      exact h
    · intro h
      exact h 0 (le_refl 0)
  | succ n ih =>
    constructor
    · intro h j hj
      simp only [apeScanBack] at h
      cases hc : apeCheckAt w fS wB (n + 1) with
      | some loc =>
        rw [hc] at h
        simp at h
      | none =>
        rw [hc] at h
        by_cases hj2 : j = n + 1
        · subst hj2
          exact hc
        · exact (ih.mp h) j (by omega)
    · intro h
      simp only [apeScanBack]
      rw [h (n + 1) (le_refl _)]
      exact ih.mpr (fun j hj => h j (by omega))

set_option maxRecDepth 100000 in
/-- Claim C7 (counterexample): on a file of `2^32 + 4096` bytes whose true
last 4096 bytes are all zero, footer discovery nevertheless finds an
"APETAGEX" record — at absolute offset 4294967263, strictly below the
start of the last `min(file_size, 4096)` bytes — because the 32-bit
`GetSize` reports 0xFFFFFFFF for the over-4-GiB file and the tail window
is read at the wrong offset.  So the scan is not confined to the last
`min(file_size, 4096)` bytes. -/
theorem spec_c7_counterexample :
    32 ≤ bigApeF.size ∧
    Ape_ScanFooter bigApeF = some ⟨4294967263, 4294967263, 32⟩ ∧
    bigApeF.size - 4096 = 4294967296 ∧ 4294967263 < 4294967296 := by
  decide

/-- Claim C7 (amended): for files smaller than 4 GiB (where GetSize is the
true length), footer discovery on a file of at least 32 bytes reads only
the last `min(file_size, 4096)` bytes, equals the backward scan over that
window, any hit comes from a window offset that carries the 8-byte
"APETAGEX" signature with a little-endian size 12 bytes in satisfying
`32 <= size <= file_size`, with absolute footer `window_base + i` and
absolute start the DWORD value `footer + 32 - size`; files smaller than
32 bytes yield no tag. -/
theorem spec_c7_amended (f : ByteFile) (hsz : f.size < 4294967296) :
    (f.size < 32 → Ape_ScanFooter f = none) ∧
    (32 ≤ f.size →
      (Ape_ScanFooter f =
        apeScanBack
          (readBytes f (f.size - (if 4096 < f.size then 4096 else f.size))
            (if 4096 < f.size then 4096 else f.size))
          f.size (f.size - (if 4096 < f.size then 4096 else f.size))
          ((if 4096 < f.size then 4096 else f.size) - 32)) ∧
      (∀ loc, Ape_ScanFooter f = some loc →
        ∃ i, i ≤ (if 4096 < f.size then 4096 else f.size) - 32 ∧
          apeCheckAt
            (readBytes f (f.size - (if 4096 < f.size then 4096 else f.size))
              (if 4096 < f.size then 4096 else f.size))
            f.size (f.size - (if 4096 < f.size then 4096 else f.size)) i = some loc) ∧
      (Ape_ScanFooter f = none ↔
        ∀ i, i ≤ (if 4096 < f.size then 4096 else f.size) - 32 →
          apeCheckAt
            (readBytes f (f.size - (if 4096 < f.size then 4096 else f.size))
              (if 4096 < f.size then 4096 else f.size))
            f.size (f.size - (if 4096 < f.size then 4096 else f.size)) i = none)) ∧
    (∀ (w : List Nat) (wB i : Nat) (loc : ApeLoc),
      apeCheckAt w f.size wB i = some loc →
        (w.drop i).take 8 = [65, 80, 69, 84, 65, 71, 69, 88] ∧
        loc.totalSize = LE32 (w.drop (i + 12)) ∧
        32 ≤ loc.totalSize ∧ loc.totalSize ≤ f.size ∧
        loc.absFooter = wB + i ∧
        loc.absStart = sub32 (loc.absFooter + 32) loc.totalSize) := by
  have hgs : f.GetSize = f.size := by
    simp [ByteFile.GetSize, win32GetFileSize, hsz]
  refine ⟨?_, ?_, ?_⟩
  · intro h32
    rw [Ape_ScanFooter, hgs, if_pos h32]
  · intro h32
    have heq : Ape_ScanFooter f =
        apeScanBack
          (readBytes f (f.size - (if 4096 < f.size then 4096 else f.size))
            (if 4096 < f.size then 4096 else f.size))
          f.size (f.size - (if 4096 < f.size then 4096 else f.size))
          ((if 4096 < f.size then 4096 else f.size) - 32) := by
      rw [Ape_ScanFooter, hgs, if_neg (by omega : ¬ f.size < 32)]
      have hss : 32 ≤ (if 4096 < f.size then 4096 else f.size) := by
        split <;> omega
      have hle : (if 4096 < f.size then 4096 else f.size) ≤ f.size := by
        split <;> omega
      have hrd : f.ReadAt (f.size - (if 4096 < f.size then 4096 else f.size))
          (if 4096 < f.size then 4096 else f.size) =
          some (readBytes f (f.size - (if 4096 < f.size then 4096 else f.size))
            (if 4096 < f.size then 4096 else f.size)) := by
        rw [ByteFile.ReadAt, if_neg (by omega : ¬ 9223372036854775808 ≤
          f.size - (if 4096 < f.size then 4096 else f.size))]
        rw [readAtOffsetUsed_eq (by omega)]
        rw [if_neg (by omega : ¬ (if 4096 < f.size then 4096 else f.size) = 0),
          if_pos (by omega : f.size - (if 4096 < f.size then 4096 else f.size) +
            (if 4096 < f.size then 4096 else f.size) ≤ f.size)]
      simp only [hrd]
    refine ⟨heq, ?_, ?_⟩
    · intro loc h
      rw [heq] at h
      exact apeScanBack_some _ _ _ _ loc h
    · rw [heq]
      exact apeScanBack_none_iff _ _ _ _
  · intro w wB i loc h
    rw [apeCheckAt] at h
    simp only [] at h
    split at h
    · split at h
      · rename_i hsig hval
        cases h
        exact ⟨hsig, rfl, hval.1, hval.2, rfl, rfl⟩
      · exact absurd h (by simp)
    · exact absurd h (by simp)

/-- Witness for C7 (amended): the sample APE file's footer is located at
offset 39 with tag size 51 and absolute start 20. -/
theorem spec_c7_witness :
    Ape_ScanFooter (apeSampleF 71) = some ⟨20, 39, 51⟩ :=
  (((spec_c7_amended (apeSampleF 71) (by decide)).2.1 (by decide)).1).trans (by decide)

end GenArt
